import Mathlib

/-!
Verification of the `simple-rdp` display pipeline and client negotiation.

Shallow embedding of `src/simple_rdp/display.py` (class `Display`) and
`src/simple_rdp/client.py` (class `RDPClient`).  Pure data is modelled
directly; mutation of `self` is modelled as explicit state passing; wall-clock
times (`time.time()`) are passed in as rational parameters; exceptions that the
Python code raises are modelled with `Except`, and exceptions the Python code
catches locally are modelled by total functions returning the unchanged state.
-/

namespace SimpleRDP

/-- A 24-bit RGB pixel, one byte per channel. -/
structure Pixel where
  r : Nat
  g : Nat
  b : Nat
deriving DecidableEq, Repr

/-- The black pixel `(0, 0, 0)`. -/
def blackPixel : Pixel := ⟨0, 0, 0⟩

/-- A PIL `RGB` image: dimensions plus pixel contents.
`pix i j` is the pixel at column `i`, row `j`; only `i < width`, `j < height`
is meaningful (PIL clips all accesses to this domain). -/
structure Img where
  width : Nat
  height : Nat
  pix : Nat → Nat → Pixel

/-- Model of `Image.new("RGB", (w, h), (0, 0, 0))`: an all-black image. -/
def Img.black (w h : Nat) : Img :=
  { width := w, height := h, pix := fun _ _ => blackPixel }

/-- A pointer cursor image (PIL `RGBA` or other mode): pixel contents plus an
alpha channel and a flag recording whether the mode is `"RGBA"`. -/
structure PointerImg where
  width : Nat
  height : Nat
  pix : Nat → Nat → Pixel
  alpha : Nat → Nat → Nat
  isRGBA : Bool

/-- PIL's fixed-point `MULDIV255(a, b)` = `((a * b + 128) * 257) >> 16`,
i.e. `round(a * b / 255)` for bytes. -/
def muldiv255 (a b : Nat) : Nat := ((a * b + 128) * 257) >>> 16

/-- PIL's per-channel alpha blend used by `paste` with an alpha mask:
`BLEND(mask, dst, src)`.  `mask = 255` yields `src`, `mask = 0` yields `dst`. -/
def blendChannel (mask dst src : Nat) : Nat :=
  muldiv255 dst (255 - mask) + muldiv255 src mask

/-- Model of `dst.paste(src, (px, py))`: opaque paste of `src` at integer position
`(px, py)`; PIL clips to the destination domain, which the model inherits
because only in-domain pixels of an `Img` are ever observed. -/
def pasteImg (dst : Img) (src : Img) (px py : Int) : Img :=
  { dst with
    pix := fun u v =>
      if px ≤ (u : Int) ∧ (u : Int) < px + src.width ∧
          py ≤ (v : Int) ∧ (v : Int) < py + src.height then
        src.pix ((u : Int) - px).toNat ((v : Int) - py).toNat
      else dst.pix u v }

/-- Model of `dst.paste(src, (px, py), src)` for an RGBA `src`: paste through the alpha
band of `src` as mask, blending each channel. -/
def pasteMasked (dst : Img) (src : PointerImg) (px py : Int) : Img :=
  { dst with
    pix := fun u v =>
      if px ≤ (u : Int) ∧ (u : Int) < px + src.width ∧
          py ≤ (v : Int) ∧ (v : Int) < py + src.height then
        let i := ((u : Int) - px).toNat
        let j := ((v : Int) - py).toNat
        let a := src.alpha i j
        let d := dst.pix u v
        let s := src.pix i j
        ⟨blendChannel a d.r s.r, blendChannel a d.g s.g, blendChannel a d.b s.b⟩
      else dst.pix u v }

/-- The 16-wide cursor bitmap rows of `_create_default_pointer`:
`0` = transparent, `1` = black outline, `2` = white fill. -/
def cursorData : List (List Nat) :=
  [[1, 0, 0, 0, 0, 0, 0, 0, 0, 0, 0, 0, 0, 0, 0, 0],
   [1, 1, 0, 0, 0, 0, 0, 0, 0, 0, 0, 0, 0, 0, 0, 0],
   [1, 2, 1, 0, 0, 0, 0, 0, 0, 0, 0, 0, 0, 0, 0, 0],
   [1, 2, 2, 1, 0, 0, 0, 0, 0, 0, 0, 0, 0, 0, 0, 0],
   [1, 2, 2, 2, 1, 0, 0, 0, 0, 0, 0, 0, 0, 0, 0, 0],
   [1, 2, 2, 2, 2, 1, 0, 0, 0, 0, 0, 0, 0, 0, 0, 0],
   [1, 2, 2, 2, 2, 2, 1, 0, 0, 0, 0, 0, 0, 0, 0, 0],
   [1, 2, 2, 2, 2, 2, 2, 1, 0, 0, 0, 0, 0, 0, 0, 0],
   [1, 2, 2, 2, 2, 2, 2, 2, 1, 0, 0, 0, 0, 0, 0, 0],
   [1, 2, 2, 2, 2, 2, 2, 2, 2, 1, 0, 0, 0, 0, 0, 0],
   [1, 2, 2, 2, 2, 2, 2, 2, 2, 2, 1, 0, 0, 0, 0, 0],
   [1, 2, 2, 2, 2, 2, 2, 2, 2, 2, 2, 1, 0, 0, 0, 0],
   [1, 2, 2, 2, 2, 2, 2, 1, 1, 1, 1, 1, 1, 0, 0, 0],
   [1, 2, 2, 2, 1, 2, 2, 1, 0, 0, 0, 0, 0, 0, 0, 0],
   [1, 2, 2, 1, 0, 1, 2, 2, 1, 0, 0, 0, 0, 0, 0, 0],
   [1, 2, 1, 0, 0, 1, 2, 2, 1, 0, 0, 0, 0, 0, 0, 0],
   [1, 1, 0, 0, 0, 0, 1, 2, 2, 1, 0, 0, 0, 0, 0, 0],
   [1, 0, 0, 0, 0, 0, 1, 2, 2, 1, 0, 0, 0, 0, 0, 0],
   [0, 0, 0, 0, 0, 0, 0, 1, 2, 2, 1, 0, 0, 0, 0, 0],
   [0, 0, 0, 0, 0, 0, 0, 1, 2, 2, 1, 0, 0, 0, 0, 0],
   [0, 0, 0, 0, 0, 0, 0, 0, 1, 2, 1, 0, 0, 0, 0, 0],
   [0, 0, 0, 0, 0, 0, 0, 0, 1, 1, 0, 0, 0, 0, 0, 0]]

/-- Colour/alpha mapping of the cursor codes: `(R, G, B, A)` per code. -/
def cursorColor (code : Nat) : Pixel × Nat :=
  match code with
  | 1 => (⟨0, 0, 0⟩, 255)
  | 2 => (⟨255, 255, 255⟩, 255)
  | _ => (⟨0, 0, 0⟩, 0)

/-- Cursor code at column `i`, row `j` of `cursorData`. -/
def cursorVal (i j : Nat) : Nat := ((cursorData.getD j []).getD i 0)

/-- Model of `_create_default_pointer()`: the built-in 16×22 RGBA arrow cursor. -/
def defaultPointer : PointerImg :=
  { width := 16
    height := 22
    pix := fun i j => (cursorColor (cursorVal i j)).1
    alpha := fun i j => (cursorColor (cursorVal i j)).2
    isRGBA := true }

/-- The mutable state of a `Display` relevant to the raster surface and
pointer: screen buffer, consumer buffer, dirty flag, pointer state, throttle
timestamps and the stats counters they touch.  Times are rationals (seconds). -/
structure DisplayState where
  width : Nat
  height : Nat
  fps : Nat
  screenBuffer : Option Img
  consumerBuffer : Option Img
  consumerBufferDirty : Bool
  pointerX : Int
  pointerY : Int
  pointerVisible : Bool
  pointerImage : Option PointerImg
  pointerHotspot : Int × Int
  lastPointerUpdate : ℚ
  pointerUpdateInterval : ℚ
  bitmapsApplied : Nat
  pointerUpdates : Nat
  pointerUpdatesThrottled : Nat

/-- Model of `Display.__init__`: the raster-relevant initial state. -/
def Display.init (width height fps : Nat) : DisplayState :=
  { width := width
    height := height
    fps := fps
    screenBuffer := none
    consumerBuffer := none
    consumerBufferDirty := true
    pointerX := 0
    pointerY := 0
    pointerVisible := true
    pointerImage := none
    pointerHotspot := (0, 0)
    lastPointerUpdate := 0
    pointerUpdateInterval := 1 / (fps : ℚ)
    bitmapsApplied := 0
    pointerUpdates := 0
    pointerUpdatesThrottled := 0 }

/-- Model of `Display.initialize_screen`: set both buffers to black, mark dirty. -/
def initScreen (d : DisplayState) : DisplayState :=
  { d with
    screenBuffer := some (Img.black d.width d.height)
    consumerBuffer := some (Img.black d.width d.height)
    consumerBufferDirty := true }

/-- The pointer image and hotspot `_update_consumer_buffer` composites:
the custom pointer with its hotspot, or the default arrow with hotspot `(0,0)`. -/
def effectivePointer (d : DisplayState) : PointerImg × (Int × Int) :=
  match d.pointerImage with
  | some img => (img, d.pointerHotspot)
  | none => (defaultPointer, (0, 0))

/-- Model of `Display._update_consumer_buffer`: repaint the consumer buffer from the
screen buffer and composite the pointer if visible, then clear the dirty flag.
The `try/except` around the pointer paste is a no-op here since the modelled
pastes are total. -/
def updateConsumerBuffer (d : DisplayState) : DisplayState :=
  match d.screenBuffer with
  | none => d
  | some screen =>
    let base :=
      match d.consumerBuffer with
      | some cb =>
        if cb.width = screen.width ∧ cb.height = screen.height then cb
        else Img.black d.width d.height
      | none => Img.black d.width d.height
    let pasted := pasteImg base screen 0 0
    let composited :=
      if d.pointerVisible then
        let pointer := (effectivePointer d).1
        let hotspot := (effectivePointer d).2
        let px := d.pointerX - hotspot.1
        let py := d.pointerY - hotspot.2
        if -(pointer.width : Int) < px ∧ px < (d.width : Int) ∧
            -(pointer.height : Int) < py ∧ py < (d.height : Int) then
          if pointer.isRGBA then pasteMasked pasted pointer px py
          else pasteImg pasted ⟨pointer.width, pointer.height, pointer.pix⟩ px py
        else pasted
      else pasted
    { d with consumerBuffer := some composited, consumerBufferDirty := false }

/-- Model of `Display.update_pointer(x, y, visible, image, hotspot)` at wall-clock time
`now`; returns whether the update was applied together with the new state. -/
def updatePointer (x y : Option Int) (visible : Option Bool)
    (image : Option PointerImg) (hotspot : Option (Int × Int)) (now : ℚ)
    (d : DisplayState) : Bool × DisplayState :=
  let isPositionOnly := image.isNone && hotspot.isNone && visible.isNone
  if isPositionOnly ∧ now - d.lastPointerUpdate < d.pointerUpdateInterval then
    (false, { d with pointerUpdatesThrottled := d.pointerUpdatesThrottled + 1 })
  else
    (true,
      { d with
        pointerX := x.getD d.pointerX
        pointerY := y.getD d.pointerY
        pointerVisible := visible.getD d.pointerVisible
        pointerImage := match image with | some i => some i | none => d.pointerImage
        pointerHotspot := hotspot.getD d.pointerHotspot
        lastPointerUpdate := now
        consumerBufferDirty := true
        pointerUpdates := d.pointerUpdates + 1 })

/-- Model of `Display.screenshot`: the returned image copy, together with the state
after the call (the consumer buffer may have been lazily regenerated). -/
def screenshot (d : DisplayState) : Img × DisplayState :=
  match d.screenBuffer with
  | none => (Img.black d.width d.height, d)
  | some _ =>
    let d' :=
      if d.consumerBufferDirty ∨ d.consumerBuffer.isNone then updateConsumerBuffer d
      else d
    (d'.consumerBuffer.getD (Img.black d.width d.height), d')

/-- The `expected_size` computed by `apply_bitmap` for each supported bpp;
`none` for unsupported bpp (which `apply_bitmap` logs and drops). -/
def expectedSize (bpp w h : Nat) : Option Nat :=
  match bpp with
  | 32 => some (w * h * 4)
  | 24 => some (w * h * 3)
  | 16 => some (w * h * 2)
  | 15 => some (w * h * 2)
  | 8 => some (w * h)
  | _ => none

/-- Decode the pixel with linear index `idx` from raw bitmap bytes in the PIL
raw mode `apply_bitmap` selects for `bpp` (`BGRX`, `BGR`, `BGR;16`, `BGR;15`,
matching PIL's unpackers); missing bytes read as 0 (never reached when the
length check passed). -/
def decodeRawPixel (bpp : Nat) (data : List Nat) (idx : Nat) : Pixel :=
  let byte := fun i => data.getD i 0
  match bpp with
  | 32 => ⟨byte (4 * idx + 2), byte (4 * idx + 1), byte (4 * idx)⟩
  | 24 => ⟨byte (3 * idx + 2), byte (3 * idx + 1), byte (3 * idx)⟩
  | 16 =>
    let v := byte (2 * idx) + 256 * byte (2 * idx + 1)
    ⟨(v >>> 8) &&& 0xF8, (v >>> 3) &&& 0xFC, (v <<< 3) &&& 0xF8⟩
  | 15 =>
    let v := byte (2 * idx) + 256 * byte (2 * idx + 1)
    ⟨(v >>> 7) &&& 0xF8, (v >>> 2) &&& 0xF8, (v <<< 3) &&& 0xF8⟩
  | _ => blackPixel

/-- Model of `Image.frombytes(...)` followed by `transpose(FLIP_TOP_BOTTOM)`:
the decoded bitmap, already flipped vertically (RDP sends rows bottom-up). -/
def decodeBitmap (bpp w h : Nat) (data : List Nat) : Img :=
  { width := w
    height := h
    pix := fun i j => decodeRawPixel bpp data ((h - 1 - j) * w + i) }

/-- The opening lines of `apply_bitmap`: if the screen buffer is `None`,
`initialize_screen()` is called first. -/
def preApply (d : DisplayState) : DisplayState :=
  if d.screenBuffer.isNone then initScreen d else d

/-- Model of `Display.apply_bitmap(x, y, w, h, data, bpp)`.

Failure paths mirror the source: an uninitialized screen buffer is first
initialized; unsupported bpp and too-short data are logged and dropped
(returning with no further mutation); for `bpp = 8` the source hands PIL the
raw mode `"P"` for an `"RGB"` image, which `Image.frombytes` rejects, and the
surrounding `except` swallows the error — again no mutation.  On success the
decoded, flipped bitmap is pasted at `(x, y)`, `bitmaps_applied` is
incremented and the consumer buffer is marked dirty. -/
def applyBitmap (x y bw bh : Nat) (data : List Nat) (bpp : Nat)
    (d : DisplayState) : DisplayState :=
  let d' := preApply d
  match d'.screenBuffer with
  | none => d'
  | some screen =>
    match expectedSize bpp bw bh with
    | none => d'
    | some esz =>
      if data.length < esz then d'
      else if bpp = 8 then d'
      else
        { d' with
          screenBuffer := some (pasteImg screen (decodeBitmap bpp bw bh data) (x : Int) (y : Int))
          bitmapsApplied := d'.bitmapsApplied + 1
          consumerBufferDirty := true }

/-! ### Bitmap update sequences

Abstraction of a sequence of `apply_bitmap` calls, and the specification-side
notion "pixel last written at `(x, y)` by the latest update covering it". -/

/-- The arguments of one `apply_bitmap` call. -/
structure BitmapUpdate where
  x : Nat
  y : Nat
  w : Nat
  h : Nat
  data : List Nat
  bpp : Nat

/-- An update is applied successfully iff its bpp is supported, PIL can decode
it (everything but the `bpp = 8` palette mode), and the data is long enough. -/
def BitmapUpdate.ok (u : BitmapUpdate) : Bool :=
  match expectedSize u.bpp u.w u.h with
  | some esz => decide (esz ≤ u.data.length) && decide (u.bpp ≠ 8)
  | none => false

/-- Whether the update's destination rectangle covers screen coordinate `(p, q)`. -/
def BitmapUpdate.covers (u : BitmapUpdate) (p q : Nat) : Bool :=
  decide (u.x ≤ p) && decide (p < u.x + u.w) && decide (u.y ≤ q) && decide (q < u.y + u.h)

/-- The pixel the update writes at screen coordinate `(p, q)` (meaningful when
it covers `(p, q)`): the decoded, vertically flipped bitmap pixel. -/
def BitmapUpdate.pixelAt (u : BitmapUpdate) (p q : Nat) : Pixel :=
  (decodeBitmap u.bpp u.w u.h u.data).pix (p - u.x) (q - u.y)

/-- The pixel last written at `(p, q)` by the latest successful update covering
it, if any. -/
def lastWritten (us : List BitmapUpdate) (p q : Nat) : Option Pixel :=
  (us.reverse.find? fun u => u.ok && u.covers p q).map fun u => u.pixelAt p q

/-- Apply a whole sequence of `apply_bitmap` calls in order. -/
def applyUpdates (us : List BitmapUpdate) (d : DisplayState) : DisplayState :=
  us.foldl (fun d u => applyBitmap u.x u.y u.w u.h u.data u.bpp d) d

/-! ### Video pipeline state (`_read_video_output` and the chunk queue) -/

/-- Model of `VideoChunk`: encoded bytes tagged with a timestamp and sequence number. -/
structure VideoChunk where
  data : List Nat
  timestamp : ℚ
  sequence : Nat
deriving DecidableEq, Repr

/-- The `Display` state mutated by `_read_video_output` and the queue consumer:
the chunk counter, the in-memory chunk buffer (`_video_chunks`, a deque with
its byte size), the bounded consumer queue (`_video_queue`, a FIFO created
with `maxsize=100`), and the relevant stats counters.  The write of each chunk
to the recording file is external I/O and leaves this state untouched. -/
structure VideoState where
  chunkSequence : Nat
  videoChunks : List VideoChunk
  videoBufferSize : Nat
  videoQueue : List VideoChunk
  queueMaxsize : Nat
  maxVideoBufferBytes : Nat
  bytesEncoded : Nat
  queueDrops : Nat
  chunksEvicted : Nat
deriving DecidableEq, Repr

/-- The video-pipeline state of a freshly constructed `Display` with the given
video-buffer cap: empty buffers, `Queue(maxsize=100)`, zeroed counters. -/
def VideoState.init (maxBufferBytes : Nat) : VideoState :=
  { chunkSequence := 0
    videoChunks := []
    videoBufferSize := 0
    videoQueue := []
    queueMaxsize := 100
    maxVideoBufferBytes := maxBufferBytes
    bytesEncoded := 0
    queueDrops := 0
    chunksEvicted := 0 }

/-- The eviction loop at the end of each `_read_video_output` iteration:
pop old chunks from the left while the buffer exceeds its byte cap. -/
def evictOld (v : VideoState) : VideoState :=
  match _hchunks : v.videoChunks with
  | [] => v
  | c :: rest =>
    if v.maxVideoBufferBytes < v.videoBufferSize then
      evictOld
        { v with
          videoChunks := rest
          videoBufferSize := v.videoBufferSize - c.data.length
          chunksEvicted := v.chunksEvicted + 1 }
    else v
termination_by v.videoChunks.length
decreasing_by simp [_hchunks]

/-- One iteration of `_read_video_output` after reading `data` from ffmpeg
stdout at time `now`: empty reads just sleep; otherwise build the chunk with
the current sequence number, append it to the buffer, `put_nowait` it into the
queue (dropping and counting on `QueueFull`, which asyncio raises when
`qsize() >= maxsize`), then evict old buffer chunks over the byte cap. -/
def readStep (data : List Nat) (now : ℚ) (v : VideoState) : VideoState :=
  if data = [] then v
  else
    let chunk : VideoChunk := { data := data, timestamp := now, sequence := v.chunkSequence }
    let v1 :=
      { v with
        chunkSequence := v.chunkSequence + 1
        videoChunks := v.videoChunks ++ [chunk]
        videoBufferSize := v.videoBufferSize + chunk.data.length
        bytesEncoded := v.bytesEncoded + chunk.data.length }
    let v2 :=
      if v1.videoQueue.length < v1.queueMaxsize then
        { v1 with videoQueue := v1.videoQueue ++ [chunk] }
      else
        { v1 with queueDrops := v1.queueDrops + 1 }
    evictOld v2

/-- Model of `get_next_video_chunk`: the consumer's `queue.get()`, popping the front
chunk if one is available (a timeout with an empty queue returns `none`). -/
def queueGet (v : VideoState) : Option VideoChunk × VideoState :=
  match v.videoQueue with
  | [] => (none, v)
  | c :: rest => (some c, { v with videoQueue := rest })

/-- An event of the video pipeline: a stdout read by the reader task, or a
consumer dequeue. -/
inductive VideoEvent where
  | read (data : List Nat) (now : ℚ)
  | consume
deriving DecidableEq, Repr

/-- Step the video state by one event. -/
def videoStep (e : VideoEvent) (v : VideoState) : VideoState :=
  match e with
  | .read data now => readStep data now v
  | .consume => (queueGet v).2

/-- Run a whole interleaving of reader iterations and consumer dequeues. -/
def runVideo (es : List VideoEvent) (v : VideoState) : VideoState :=
  es.foldl (fun v e => videoStep e v) v

/-- The sequence numbers assigned to the chunks produced by the reader, in
production order, along an event interleaving. -/
def producedSeqs (es : List VideoEvent) (v : VideoState) : List Nat :=
  match es with
  | [] => []
  | e :: rest =>
    (match e with
      | .read data _ => if data = [] then [] else [v.chunkSequence]
      | .consume => []) ++
    producedSeqs rest (videoStep e v)

/-- Number of producing reader iterations (non-empty stdout reads). -/
def producedCount (es : List VideoEvent) : Nat :=
  es.countP fun e =>
    match e with
    | .read data _ => !(data.isEmpty)
    | .consume => false

/-! ### Client: X.224 negotiation and TLS upgrade (`client.py`) -/

/-- A Python exception relevant to `RDPClient._parse_x224_response`:
a `ConnectionError` with its message, or the `IndexError` raised by an
out-of-range `bytes` index. -/
inductive PyError where
  | connectionError (msg : String)
  | indexError
deriving DecidableEq, Repr

/-- Model of `e` is a `ConnectionError` result. -/
def isConnectionError {α : Type} (e : Except PyError α) : Bool :=
  match e with
  | .error (.connectionError _) => true
  | _ => false

/-- Model of `RDPClient._parse_x224_response(data)`.

Mirrors the source line by line: the `len(data) < 11` guard raises
`ConnectionError`; then `data[11]` (an `IndexError` when `len(data) = 11`);
type `0x02` returns `data[15:19]` reversed (a too-short slice is simply
short); type `0x03` first evaluates `data[14]` inside the log f-string (an
`IndexError` when `len(data) < 15`) and then raises `ConnectionError` with a
fixed message that does not include the failure code; other types raise
`ConnectionError`. -/
def parse_x224_response (data : List Nat) : Except PyError (List Nat) :=
  if data.length < 11 then
    .error (.connectionError ("Invalid X.224 response from server."))
  else
    match data[11]? with
    | none => .error .indexError
    | some t =>
      if t = 0x02 then .ok ((data.drop 15).take 4).reverse
      else if t = 0x03 then
        if 14 < data.length then
          .error (.connectionError ("RDP negotiation failed as per server response."))
        else .error .indexError
      else .error (.connectionError ("Unexpected X.224 response type from server."))

/-- The byte values of a Latin-1 string (all characters used are ASCII). -/
def strBytes (s : String) : List Nat := s.data.map Char.toNat

/-- The routing cookie `_start_x224` sends: the literal
`b"Cookie: mstshash=user\r\n"` (13, 10 are `\r`, `\n`). -/
def x224_cookie : List Nat := strBytes ("Cookie: mstshash=user") ++ [13, 10]

/-- The RDP Negotiation Request `_start_x224` sends: type 1, flags 0, length 8,
requestedProtocols `0x00000003` little-endian (`PROTOCOL_SSL | PROTOCOL_HYBRID`,
i.e. TLS and CredSSP; Standard RDP is protocol value 0 and has no flag bit). -/
def rdp_neg_request : List Nat := [0x01, 0x00, 0x08, 0x00, 0x03, 0x00, 0x00, 0x00]

/-- The full TPKT-framed X.224 Connection Request built by
`RDPClient._start_x224`; it does not depend on the client's username. -/
def x224_connection_request : List Nat :=
  let cookie := x224_cookie
  let neg := rdp_neg_request
  let x224_length := 6 + cookie.length + neg.length
  let x224_header := [x224_length % 256, 0xE0, 0x00, 0x00, 0x00, 0x00, 0x00]
  let tpkt_length := 4 + x224_header.length + cookie.length + neg.length
  let tpkt_header := [0x03, 0x00] ++ [tpkt_length / 256 % 256, tpkt_length % 256]
  tpkt_header ++ x224_header ++ cookie ++ neg

/-- Written from the spec sentence for the refinement comparison of C5: a
Connection Request whose routing cookie is `Cookie: mstshash=<user>\r\n`
carrying the given username, with the same framing and negotiation request. -/
def spec_x224_connection_request (user : String) : List Nat :=
  let cookie := strBytes ("Cookie: mstshash=" ++ user) ++ [13, 10]
  let neg := rdp_neg_request
  let x224_length := 6 + cookie.length + neg.length
  let x224_header := [x224_length % 256, 0xE0, 0x00, 0x00, 0x00, 0x00, 0x00]
  let tpkt_length := 4 + x224_header.length + cookie.length + neg.length
  let tpkt_header := [0x03, 0x00] ++ [tpkt_length / 256 % 256, tpkt_length % 256]
  tpkt_header ++ x224_header ++ cookie ++ neg

/-- Model of `ssl` certificate verification modes. -/
inductive VerifyMode where
  | certNone
  | certOptional
  | certRequired
deriving DecidableEq, Repr

/-- The part of an `ssl.SSLContext` the client configures. -/
structure SSLContext where
  check_hostname : Bool
  verify_mode : VerifyMode
deriving DecidableEq, Repr

/-- Model of `ssl.create_default_context(ssl.Purpose.SERVER_AUTH)`: hostname checking
on, certificates required. -/
def create_default_context : SSLContext :=
  { check_hostname := true, verify_mode := .certRequired }

/-- The constructor arguments of `RDPClient`. -/
structure RDPClientConfig where
  host : String
  port : Nat
  username : Option String
  password : Option String
  domain : Option String

/-- The TLS context `RDPClient._upgdate_to_tls` hands to `start_tls`: the
default context with hostname checking disabled and `CERT_NONE`.  It is built
from no caller input — the constructor arguments cannot influence it. -/
def client_tls_context (_ : RDPClientConfig) : SSLContext :=
  { create_default_context with check_hostname := false, verify_mode := .certNone }

/-- The protocol bytes (after the little-endian reversal in
`_parse_x224_response`) for which `RDPClient.connect` upgrades to TLS. -/
def connect_upgrades_to_tls (protocol : List Nat) : Bool :=
  protocol = [0x00, 0x00, 0x00, 0x02] || protocol = [0x00, 0x00, 0x00, 0x01]

/-- Model of `PROTOCOL_SSL` (TLS) as the reversed protocol bytes `connect` compares to. -/
def tls_protocol_bytes : List Nat := [0x00, 0x00, 0x00, 0x01]

/-- Model of `PROTOCOL_HYBRID` (CredSSP) as the reversed protocol bytes. -/
def credssp_protocol_bytes : List Nat := [0x00, 0x00, 0x00, 0x02]

/-! ### Derived observations used by the theorems -/

/-- The screen-buffer pixel at `(p, q)`, if the buffer exists. -/
def screenPix (d : DisplayState) (p q : Nat) : Option Pixel :=
  d.screenBuffer.map fun s => s.pix p q

/-- The failure condition of claim C9: the data is shorter than
`width*height*bytes-per-pixel` for the given bpp, or the bpp is unsupported. -/
def applyFails (bpp bw bh : Nat) (data : List Nat) : Prop :=
  match expectedSize bpp bw bh with
  | none => True
  | some esz => data.length < esz

/-- Queue chunks are strictly increasing in sequence number, and all of them
were produced before the current value of the chunk counter. -/
def QueueSeqSorted (v : VideoState) : Prop :=
  (v.videoQueue.map VideoChunk.sequence).Pairwise (· < ·) ∧
  ∀ c ∈ v.videoQueue, c.sequence < v.chunkSequence

/-!
## Theorems

Supporting lemmas first, then one theorem per claim (with its witness or
counterexample where required).
-/

/-- Unchanged fields of `evictOld`: the eviction loop only touches the chunk
buffer, its byte size and the eviction counter. -/
theorem evictOld_fields (v : VideoState) :
    (evictOld v).videoQueue = v.videoQueue ∧
    (evictOld v).queueMaxsize = v.queueMaxsize ∧
    (evictOld v).queueDrops = v.queueDrops ∧
    (evictOld v).chunkSequence = v.chunkSequence ∧
    (evictOld v).bytesEncoded = v.bytesEncoded := by
  rw [evictOld.eq_def]
  split
  next => exact ⟨rfl, rfl, rfl, rfl, rfl⟩
  next c rest hc =>
    split
    next =>
      obtain ⟨h1, h2, h3, h4, h5⟩ := evictOld_fields
        { v with
          videoChunks := rest
          videoBufferSize := v.videoBufferSize - c.data.length
          chunksEvicted := v.chunksEvicted + 1 }
      exact ⟨h1, h2, h3, h4, h5⟩
    next => exact ⟨rfl, rfl, rfl, rfl, rfl⟩
termination_by v.videoChunks.length
decreasing_by simp_all

/-! ### Case analysis of `applyBitmap` -/

/-- After the opening lines of `apply_bitmap` the screen buffer always exists. -/
theorem preApply_screen_some (d : DisplayState) :
    ∃ s, (preApply d).screenBuffer = some s := by
  unfold preApply
  cases hd : d.screenBuffer with
  | none => exact ⟨Img.black d.width d.height, by simp [hd, initScreen]⟩
  | some s => exact ⟨s, by simp [hd]⟩

/-- Fields `preApply` never changes, and the dirty flag it can only set. -/
theorem preApply_fields (d : DisplayState) :
    (preApply d).width = d.width ∧ (preApply d).height = d.height ∧
    (preApply d).pointerVisible = d.pointerVisible ∧
    (preApply d).bitmapsApplied = d.bitmapsApplied ∧
    (d.consumerBufferDirty = true → (preApply d).consumerBufferDirty = true) := by
  unfold preApply
  split
  · exact ⟨rfl, rfl, rfl, rfl, fun _ => rfl⟩
  · exact ⟨rfl, rfl, rfl, rfl, fun h => h⟩

/-- Model of `preApply` on an already-initialized display: a no-op. -/
theorem preApply_of_some {d : DisplayState} {s : Img} (h : d.screenBuffer = some s) :
    preApply d = d := by
  unfold preApply
  simp [h]

/-- A failed `apply_bitmap` (unsupported bpp, short data, or the `bpp = 8`
PIL rejection) performs no mutation beyond the possible screen
initialization. -/
theorem applyBitmap_of_not_ok {x y bw bh : Nat} {data : List Nat} {bpp : Nat}
    (h : (BitmapUpdate.mk x y bw bh data bpp).ok = false) (d : DisplayState) :
    applyBitmap x y bw bh data bpp d = preApply d := by
  obtain ⟨screen, hs⟩ := preApply_screen_some d
  simp only [applyBitmap]
  rw [hs]
  cases he : expectedSize bpp bw bh with
  | none => rfl
  | some esz =>
    by_cases hlen : data.length < esz
    · simp [hlen]
    · by_cases h8 : bpp = 8
      · simp [hlen, h8]
      · exfalso
        simp [BitmapUpdate.ok, he, h8] at h
        omega

/-- A successful `apply_bitmap` pastes the decoded flipped bitmap at `(x, y)`,
increments `bitmaps_applied` and sets the dirty flag. -/
theorem applyBitmap_of_ok {x y bw bh : Nat} {data : List Nat} {bpp : Nat}
    (h : (BitmapUpdate.mk x y bw bh data bpp).ok = true) {d : DisplayState}
    {screen : Img} (hs : (preApply d).screenBuffer = some screen) :
    applyBitmap x y bw bh data bpp d =
      { preApply d with
        screenBuffer :=
          some (pasteImg screen (decodeBitmap bpp bw bh data) (x : Int) (y : Int))
        bitmapsApplied := (preApply d).bitmapsApplied + 1
        consumerBufferDirty := true } := by
  simp only [applyBitmap]
  rw [hs]
  cases he : expectedSize bpp bw bh with
  | none => simp [BitmapUpdate.ok, he] at h
  | some esz =>
    simp only [BitmapUpdate.ok, he, Bool.and_eq_true, decide_eq_true_eq] at h
    have hlen : ¬ data.length < esz := by omega
    simp [hlen, h.2]

/-! ### Claim C4: parsing the X.224 Connection Confirm -/

/-- C4, counterexample.  The claim says a response too short to contain the
type byte also yields a connection error, and that a type-0x03 failure yields
an error carrying the server's failure code.  But an 11-byte response passes
the `len(data) < 11` guard and then `data[11]` raises an `IndexError`, not a
`ConnectionError`; and the `ConnectionError` raised for type 0x03 has a fixed
message: two responses differing only in the failure code byte `data[14]`
produce identical errors. -/
theorem C4_parse_x224_counterexample :
    parse_x224_response (List.replicate 11 0) = .error .indexError ∧
    isConnectionError (parse_x224_response (List.replicate 11 0)) = false ∧
    parse_x224_response (List.replicate 11 0 ++ [0x03, 0, 0, 42]) =
      parse_x224_response (List.replicate 11 0 ++ [0x03, 0, 0, 43]) := by
  refine ⟨by rfl, by rfl, by rfl⟩

/-- C4, amended.  `_parse_x224_response` behaves as follows: responses of
fewer than 11 bytes raise a `ConnectionError`; a response of exactly 11 bytes
raises an `IndexError` instead; on type byte 0x02 it accepts and returns
`data[15:19]` reversed (the server-selected protocol, bytes treated
little-endian); on type byte 0x03 with at least 15 bytes it raises a
`ConnectionError` with a fixed message (the failure code `data[14]` is only
logged, not carried in the error), and with fewer than 15 bytes an
`IndexError`; any other type byte raises a `ConnectionError`. -/
theorem C4_parse_x224_amended (data : List Nat) :
    (data.length < 11 →
      parse_x224_response data =
        .error (.connectionError ("Invalid X.224 response from server."))) ∧
    (data.length = 11 → parse_x224_response data = .error .indexError) ∧
    (data[11]? = some 0x02 →
      parse_x224_response data = .ok ((data.drop 15).take 4).reverse) ∧
    (data[11]? = some 0x03 → 15 ≤ data.length →
      parse_x224_response data =
        .error (.connectionError ("RDP negotiation failed as per server response."))) ∧
    (data[11]? = some 0x03 → data.length < 15 →
      parse_x224_response data = .error .indexError) ∧
    (∀ t, data[11]? = some t → t ≠ 0x02 → t ≠ 0x03 →
      parse_x224_response data =
        .error (.connectionError ("Unexpected X.224 response type from server."))) := by
  refine ⟨?_, ?_, ?_, ?_, ?_, ?_⟩
  · intro h
    simp [parse_x224_response, h]
  · intro h
    have hg : data[11]? = none := List.getElem?_eq_none (by omega)
    simp [parse_x224_response, h, hg]
  · intro h
    obtain ⟨h11, -⟩ := List.getElem?_eq_some.mp h
    have hl : ¬ data.length < 11 := by omega
    simp [parse_x224_response, hl, h]
  · intro h hlen
    have hl : ¬ data.length < 11 := by omega
    have h14 : 14 < data.length := by omega
    simp [parse_x224_response, hl, h, h14]
  · intro h hlen
    obtain ⟨h11, -⟩ := List.getElem?_eq_some.mp h
    have hl : ¬ data.length < 11 := by omega
    have h14 : ¬ 14 < data.length := by omega
    simp [parse_x224_response, hl, h, h14]
  · intro t h h2 h3
    obtain ⟨h11, -⟩ := List.getElem?_eq_some.mp h
    have hl : ¬ data.length < 11 := by omega
    simp [parse_x224_response, hl, h, h2, h3]

/-- C4, witness for the amended theorem at concrete responses. -/
theorem C4_parse_x224_witness :
    parse_x224_response (List.replicate 10 0) =
      .error (.connectionError ("Invalid X.224 response from server.")) ∧
    parse_x224_response [0, 0, 0, 0, 0, 0, 0, 0, 0, 0, 0, 2, 0, 0, 0, 9, 8, 7, 6, 5] =
      .ok [6, 7, 8, 9] :=
  ⟨(C4_parse_x224_amended (List.replicate 10 0)).1 (by decide),
   ((C4_parse_x224_amended [0, 0, 0, 0, 0, 0, 0, 0, 0, 0, 0, 2, 0, 0, 0, 9, 8, 7, 6, 5]).2.2.1
      (by decide))⟩

/-! ### Claim C5: the X.224 Connection Request and its routing cookie -/

/-- C5, counterexample.  The claim says the routing cookie carries the
caller's username, but `_start_x224` hard-codes `b"Cookie: mstshash=user"`:
connecting with username `alice` sends a request that does not contain the
bytes of `mstshash=alice` anywhere (not even as a sparse subsequence), and the
request differs from the spec-modelled request for that username. -/
theorem C5_cookie_counterexample :
    x224_connection_request ≠ spec_x224_connection_request ("alice") ∧
    ¬ List.Sublist (strBytes ("mstshash=alice")) x224_connection_request := by
  refine ⟨by decide, by decide⟩

/-- C5, amended.  The Connection Request is TPKT-framed (version 3, reserved
0, 16-bit big-endian total length 42) and carries the X.224 header, a routing
cookie and an RDP Negotiation Request advertising requestedProtocols
`0x00000003` = `PROTOCOL_SSL | PROTOCOL_HYBRID` (TLS and CredSSP; Standard RDP
is protocol 0 and needs no flag bit) — but the cookie is always the fixed
literal `Cookie: mstshash=user\r\n` regardless of the configured username,
i.e. the request equals the spec-modelled request only for the literal
username `user`. -/
theorem C5_connection_request_amended :
    x224_connection_request = spec_x224_connection_request ("user") ∧
    x224_connection_request =
      [0x03, 0x00, 0x00, 42] ++ [37, 0xE0, 0x00, 0x00, 0x00, 0x00, 0x00] ++
        x224_cookie ++ rdp_neg_request ∧
    x224_cookie = strBytes ("Cookie: mstshash=user") ++ [13, 10] ∧
    x224_connection_request.length = 42 ∧
    rdp_neg_request.drop 4 = [0x03, 0x00, 0x00, 0x00] := by
  refine ⟨by decide, by decide, by decide, by decide, by decide⟩

/-! ### Claim C6: TLS upgrade condition and certificate verification -/

/-- C6, counterexample.  The claim says the implementation exposes a hook to
enable certificate verification; but the TLS context `_upgdate_to_tls` builds
is a fixed constant — no constructor argument of `RDPClient` can make its
`verify_mode` anything other than `CERT_NONE`. -/
theorem C6_tls_hook_counterexample :
    ¬ ∃ c : RDPClientConfig, (client_tls_context c).verify_mode ≠ VerifyMode.certNone := by
  rintro ⟨c, h⟩
  exact h rfl

/-- C6, amended.  `connect` upgrades the socket to TLS exactly when the
server-selected protocol is CredSSP (`00 00 00 02`) or TLS (`00 00 00 01`),
and the handshake never verifies the server certificate (`CERT_NONE`,
hostname checking off) for every client configuration; no hook to enable
verification is exposed. -/
theorem C6_tls_amended (c : RDPClientConfig) (proto : List Nat) :
    (connect_upgrades_to_tls proto = true ↔
      proto = credssp_protocol_bytes ∨ proto = tls_protocol_bytes) ∧
    (client_tls_context c).verify_mode = VerifyMode.certNone ∧
    (client_tls_context c).check_hostname = false := by
  refine ⟨?_, rfl, rfl⟩
  simp [connect_upgrades_to_tls, credssp_protocol_bytes, tls_protocol_bytes]

/-! ### Claim C10: screenshot of an uninitialized display -/

/-- C10, confirmed.  A freshly constructed `Display` has no screen buffer, and
for any display whose screen buffer is uninitialized, `screenshot()` returns
an all-black RGB image of the configured width and height and leaves the
state unchanged. -/
theorem C10_screenshot_uninitialized (w h fps : Nat) (d : DisplayState)
    (hnone : d.screenBuffer = none) :
    (Display.init w h fps).screenBuffer = none ∧
    screenshot d = (Img.black d.width d.height, d) ∧
    (Img.black d.width d.height).width = d.width ∧
    (Img.black d.width d.height).height = d.height ∧
    (∀ p q, (Img.black d.width d.height).pix p q = blackPixel) := by
  refine ⟨rfl, ?_, rfl, rfl, fun p q => rfl⟩
  unfold screenshot
  rw [hnone]

/-- C10, witness: the theorem applied to a fresh 7×5 display. -/
theorem C10_screenshot_uninitialized_witness :
    screenshot (Display.init 7 5 30) =
      (Img.black (Display.init 7 5 30).width (Display.init 7 5 30).height,
        Display.init 7 5 30) :=
  (C10_screenshot_uninitialized 7 5 30 (Display.init 7 5 30) rfl).2.1

/-! ### Claim C7: applied bitmaps mark the final surface dirty -/

/-- C7, confirmed.  Whenever an `apply_bitmap` call is successfully applied to
the raw screen buffer (observable as `bitmaps_applied` being incremented),
the resulting state has the consumer-buffer dirty flag set. -/
theorem C7_applied_bitmap_sets_dirty (x y bw bh : Nat) (data : List Nat)
    (bpp : Nat) (d : DisplayState)
    (happlied : (applyBitmap x y bw bh data bpp d).bitmapsApplied = d.bitmapsApplied + 1) :
    (applyBitmap x y bw bh data bpp d).consumerBufferDirty = true := by
  cases hok : (BitmapUpdate.mk x y bw bh data bpp).ok with
  | false =>
    exfalso
    rw [applyBitmap_of_not_ok hok] at happlied
    rw [(preApply_fields d).2.2.2.1] at happlied
    omega
  | true =>
    obtain ⟨s, hs⟩ := preApply_screen_some d
    rw [applyBitmap_of_ok hok hs]

/-- C7, witness: a concrete 1×1 32-bpp bitmap applied to a fresh display. -/
theorem C7_applied_bitmap_sets_dirty_witness :
    (applyBitmap 0 0 1 1 [1, 2, 3, 4] 32 (Display.init 4 4 30)).consumerBufferDirty = true :=
  C7_applied_bitmap_sets_dirty 0 0 1 1 [1, 2, 3, 4] 32 (Display.init 4 4 30) (by rfl)

/-! ### Claim C9: failed bitmap updates are dropped locally -/

/-- C9, counterexample.  The claim says a failed `apply_bitmap` leaves the raw
screen buffer unchanged; but on a display whose screen buffer is still
uninitialized, `apply_bitmap` initializes the buffers *before* the failure
checks, so the screen buffer changes from `None` to a black image even though
the rectangle is dropped. -/
theorem C9_failed_apply_counterexample :
    applyFails 32 1 1 [] ∧
    (Display.init 4 4 30).screenBuffer.isSome = false ∧
    (applyBitmap 0 0 1 1 [] 32 (Display.init 4 4 30)).screenBuffer.isSome = true ∧
    (applyBitmap 0 0 1 1 [] 32 (Display.init 4 4 30)).bitmapsApplied =
      (Display.init 4 4 30).bitmapsApplied := by
  exact ⟨(by decide : ([] : List Nat).length < 4), rfl, rfl, rfl⟩

/-- C9, amended.  For every `apply_bitmap` call whose data is shorter than
`width*height*bytes-per-pixel` for the given bpp, or whose bpp is unsupported,
no exception propagates (the model is a total function, mirroring the
`except` handler), `bitmaps_applied` is unchanged and the rectangle is
dropped: an already-initialized raw screen buffer is returned untouched,
while an uninitialized buffer is first initialized to all black (and still
receives no rectangle). -/
theorem C9_failed_apply_amended (x y bw bh : Nat) (data : List Nat) (bpp : Nat)
    (d : DisplayState) (hfail : applyFails bpp bw bh data) :
    (applyBitmap x y bw bh data bpp d).bitmapsApplied = d.bitmapsApplied ∧
    (∀ s, d.screenBuffer = some s →
      (applyBitmap x y bw bh data bpp d).screenBuffer = some s) ∧
    (d.screenBuffer = none →
      (applyBitmap x y bw bh data bpp d).screenBuffer =
        some (Img.black d.width d.height)) := by
  have hok : (BitmapUpdate.mk x y bw bh data bpp).ok = false := by
    unfold applyFails at hfail
    unfold BitmapUpdate.ok
    cases he : expectedSize bpp bw bh with
    | none => rfl
    | some esz =>
      rw [he] at hfail
      simp only [Bool.and_eq_false_iff, decide_eq_false_iff_not]
      left
      omega
  rw [applyBitmap_of_not_ok hok]
  refine ⟨(preApply_fields d).2.2.2.1, fun s hs => ?_, fun hnone => ?_⟩
  · rw [preApply_of_some hs, hs]
  · unfold preApply
    simp [hnone, initScreen]

/-- C9, witness: an already-initialized display given a too-short 32-bpp
update, via the amended theorem. -/
theorem C9_failed_apply_witness :
    (applyBitmap 0 0 2 2 [9, 9, 9] 32 (initScreen (Display.init 4 4 30))).bitmapsApplied =
      (initScreen (Display.init 4 4 30)).bitmapsApplied ∧
    (applyBitmap 0 0 2 2 [9, 9, 9] 32 (initScreen (Display.init 4 4 30))).screenBuffer =
      some (Img.black 4 4) :=
  ⟨(C9_failed_apply_amended 0 0 2 2 [9, 9, 9] 32 (initScreen (Display.init 4 4 30))
      (by decide : ([9, 9, 9] : List Nat).length < 16)).1,
   (C9_failed_apply_amended 0 0 2 2 [9, 9, 9] 32 (initScreen (Display.init 4 4 30))
      (by decide : ([9, 9, 9] : List Nat).length < 16)).2.1 (Img.black 4 4) rfl⟩

/-! ### Claim C3: pointer-update throttling at the FPS boundary -/

/-- C3, confirmed.  For a display whose pointer-update interval is `1 / fps`
(as set by the constructor), a position-only `update_pointer` arriving
strictly less than `1 / fps` after the previously applied update is throttled
(returns `False` and increments `pointer_updates_throttled`), while one
arriving exactly `1 / fps` after it passes and is applied (returns `True`,
increments `pointer_updates`, sets the position and records the new
timestamp). -/
theorem C3_pointer_throttling (fps : Nat) (x y : Option Int) (now : ℚ)
    (d : DisplayState) (hint : d.pointerUpdateInterval = 1 / (fps : ℚ)) :
    (now - d.lastPointerUpdate < 1 / (fps : ℚ) →
      updatePointer x y none none none now d =
        (false, { d with pointerUpdatesThrottled := d.pointerUpdatesThrottled + 1 })) ∧
    (now - d.lastPointerUpdate = 1 / (fps : ℚ) →
      (updatePointer x y none none none now d).1 = true ∧
      ((updatePointer x y none none none now d).2).pointerUpdates = d.pointerUpdates + 1 ∧
      ((updatePointer x y none none none now d).2).pointerX = x.getD d.pointerX ∧
      ((updatePointer x y none none none now d).2).pointerY = y.getD d.pointerY ∧
      ((updatePointer x y none none none now d).2).lastPointerUpdate = now ∧
      ((updatePointer x y none none none now d).2).consumerBufferDirty = true) := by
  constructor
  · intro hlt
    rw [← hint] at hlt
    unfold updatePointer
    rw [if_pos]
    exact ⟨by simp, hlt⟩
  · intro heq
    have hnlt : ¬ now - d.lastPointerUpdate < d.pointerUpdateInterval := by
      rw [hint, heq]
      exact lt_irrefl _
    unfold updatePointer
    rw [if_neg (fun hand => hnlt hand.2)]
    exact ⟨rfl, rfl, rfl, rfl, rfl, rfl⟩

/-- C3, witness: at `fps = 30` a position-only update `1/60` after the last
applied update is throttled, one exactly `1/30` after it is applied. -/
theorem C3_pointer_throttling_witness :
    updatePointer (some 5) (some 6) none none none (1 / 60) (Display.init 100 100 30) =
      (false,
        { Display.init 100 100 30 with
          pointerUpdatesThrottled :=
            (Display.init 100 100 30).pointerUpdatesThrottled + 1 }) ∧
    (updatePointer (some 5) (some 6) none none none (1 / 30) (Display.init 100 100 30)).1 =
      true :=
  ⟨(C3_pointer_throttling 30 (some 5) (some 6) (1 / 60) (Display.init 100 100 30)
      (by rfl)).1 (by norm_num [Display.init]),
   ((C3_pointer_throttling 30 (some 5) (some 6) (1 / 30) (Display.init 100 100 30)
      (by rfl)).2 (by norm_num [Display.init])).1⟩

/-! ### Claim C1: screenshot pixels after a sequence of bitmap updates -/

/-- Unfolding `lastWritten` when one more update is applied at the end. -/
theorem lastWritten_snoc (us : List BitmapUpdate) (u : BitmapUpdate) (p q : Nat) :
    lastWritten (us ++ [u]) p q =
      if (u.ok && u.covers p q) = true then some (u.pixelAt p q)
      else lastWritten us p q := by
  unfold lastWritten
  rw [List.reverse_append]
  simp only [List.reverse_cons, List.reverse_nil, List.nil_append,
    List.singleton_append, List.find?]
  cases h : (u.ok && u.covers p q) with
  | false => simp [h]
  | true => simp [h]

/-- Unfolding `applyUpdates` over a trailing update. -/
theorem applyUpdates_snoc (us : List BitmapUpdate) (u : BitmapUpdate)
    (d : DisplayState) :
    applyUpdates (us ++ [u]) d =
      applyBitmap u.x u.y u.w u.h u.data u.bpp (applyUpdates us d) := by
  unfold applyUpdates
  rw [List.foldl_append]
  rfl

/-- A successful covering update writes its decoded pixel to the screen
buffer. -/
theorem pasteImg_pix (dst src : Img) (px py : Int) (u v : Nat) :
    (pasteImg dst src px py).pix u v =
      if px ≤ (u : Int) ∧ (u : Int) < px + src.width ∧
          py ≤ (v : Int) ∧ (v : Int) < py + src.height then
        src.pix ((u : Int) - px).toNat ((v : Int) - py).toNat
      else dst.pix u v := rfl

/-- A successful covering update writes its decoded pixel to the screen
buffer (statement continues below). -/
theorem screenPix_step_covered (u : BitmapUpdate) (d : DisplayState) (p q : Nat)
    (hok : u.ok = true) (hcov : u.covers p q = true) :
    screenPix (applyBitmap u.x u.y u.w u.h u.data u.bpp d) p q =
      some (u.pixelAt p q) := by
  obtain ⟨screen, hs⟩ := preApply_screen_some d
  rw [applyBitmap_of_ok hok hs]
  simp only [BitmapUpdate.covers, Bool.and_eq_true, decide_eq_true_eq] at hcov
  obtain ⟨⟨⟨h1, h2⟩, h3⟩, h4⟩ := hcov
  show some ((pasteImg screen (decodeBitmap u.bpp u.w u.h u.data)
      (u.x : Int) (u.y : Int)).pix p q) = some (u.pixelAt p q)
  have hdw : (decodeBitmap u.bpp u.w u.h u.data).width = u.w := rfl
  have hdh : (decodeBitmap u.bpp u.w u.h u.data).height = u.h := rfl
  rw [pasteImg_pix, hdw, hdh, if_pos]
  · rw [show ((p : Int) - (u.x : Int)).toNat = p - u.x by omega,
      show ((q : Int) - (u.y : Int)).toNat = q - u.y by omega]
    rfl
  · refine ⟨by omega, by omega, by omega, by omega⟩

/-- An update that fails or does not cover `(p, q)` leaves the pixel of an
initialized screen buffer unchanged. -/
theorem screenPix_step_uncovered (u : BitmapUpdate) (d : DisplayState)
    (p q : Nat) (s : Img) (hs : d.screenBuffer = some s)
    (h : (u.ok && u.covers p q) = false) :
    screenPix (applyBitmap u.x u.y u.w u.h u.data u.bpp d) p q =
      some (s.pix p q) := by
  rw [Bool.and_eq_false_iff] at h
  cases h with
  | inl hok =>
    rw [applyBitmap_of_not_ok hok, preApply_of_some hs]
    simp [screenPix, hs]
  | inr hcov =>
    cases hok : u.ok with
    | false =>
      rw [applyBitmap_of_not_ok hok, preApply_of_some hs]
      simp [screenPix, hs]
    | true =>
      have hps : (preApply d).screenBuffer = some s := by rw [preApply_of_some hs, hs]
      rw [applyBitmap_of_ok hok hps]
      simp only [BitmapUpdate.covers, Bool.and_eq_false_iff, decide_eq_false_iff_not,
        Nat.not_le, Nat.not_lt] at hcov
      show some ((pasteImg s (decodeBitmap u.bpp u.w u.h u.data)
          (u.x : Int) (u.y : Int)).pix p q) = some (s.pix p q)
      have hdw : (decodeBitmap u.bpp u.w u.h u.data).width = u.w := rfl
      have hdh : (decodeBitmap u.bpp u.w u.h u.data).height = u.h := rfl
      rw [pasteImg_pix, hdw, hdh, if_neg]
      intro hcond
      obtain ⟨h1, h2, h3, h4⟩ := hcond
      rcases hcov with ((hc | hc) | hc) | hc <;> omega

/-- The screen-buffer pixel after a sequence of updates is the pixel last
written by the latest successful update covering it. -/
theorem screenPix_applyUpdates (us : List BitmapUpdate) (d : DisplayState)
    (p q : Nat) (c : Pixel) (h : lastWritten us p q = some c) :
    screenPix (applyUpdates us d) p q = some c := by
  induction us using List.reverseRecOn with
  | nil => simp [lastWritten] at h
  | append_singleton us u ih =>
    rw [applyUpdates_snoc]
    rw [lastWritten_snoc] at h
    by_cases hlast : (u.ok && u.covers p q) = true
    · rw [if_pos hlast] at h
      rw [Bool.and_eq_true] at hlast
      rw [screenPix_step_covered u _ p q hlast.1 hlast.2]
      exact h
    · rw [if_neg hlast] at h
      have hmid := ih h
      unfold screenPix at hmid
      cases hs : (applyUpdates us d).screenBuffer with
      | none => rw [hs] at hmid; cases hmid
      | some s =>
        rw [hs] at hmid
        simp only [Option.map_some', Option.some_inj] at hmid
        rw [screenPix_step_uncovered u _ p q s hs (Bool.not_eq_true _ ▸ hlast), hmid]

/-- Invariants preserved by every `apply_bitmap` call: display dimensions,
pointer visibility, the dirty flag once set, and the screen buffer having the
display's dimensions. -/
def ScreenInv (w h : Nat) (vis : Bool) (d : DisplayState) : Prop :=
  d.width = w ∧ d.height = h ∧ d.pointerVisible = vis ∧
  d.consumerBufferDirty = true ∧
  ∀ s, d.screenBuffer = some s → s.width = w ∧ s.height = h

/-- One `apply_bitmap` call preserves `ScreenInv`. -/
theorem screenInv_step (w h : Nat) (vis : Bool) (u : BitmapUpdate)
    (d : DisplayState) (hd : ScreenInv w h vis d) :
    ScreenInv w h vis (applyBitmap u.x u.y u.w u.h u.data u.bpp d) := by
  obtain ⟨hw, hh, hv, hdirty, hdims⟩ := hd
  have hpre : ScreenInv w h vis (preApply d) := by
    unfold preApply
    cases hs : d.screenBuffer with
    | none =>
      refine ⟨by simp [hs, initScreen, hw], by simp [hs, initScreen, hh],
        by simp [hs, initScreen, hv], by simp [hs, initScreen], ?_⟩
      intro s hsome
      simp only [hs, Option.isNone_none, if_true, initScreen] at hsome
      simp only [Option.some_inj] at hsome
      subst hsome
      exact ⟨by simp [Img.black, hw], by simp [Img.black, hh]⟩
    | some s =>
      simp only [hs, Option.isNone_some, Bool.false_eq_true, if_false]
      exact ⟨hw, hh, hv, hdirty, hdims⟩
  cases hok : u.ok with
  | false =>
    rw [applyBitmap_of_not_ok hok]
    exact hpre
  | true =>
    obtain ⟨screen, hs⟩ := preApply_screen_some d
    rw [applyBitmap_of_ok hok hs]
    obtain ⟨hw', hh', hv', _, hdims'⟩ := hpre
    refine ⟨hw', hh', hv', rfl, ?_⟩
    intro s hsome
    simp only [Option.some_inj] at hsome
    subst hsome
    have := hdims' screen hs
    exact ⟨by simp [pasteImg, this.1], by simp [pasteImg, this.2]⟩

/-- `ScreenInv` is preserved along any sequence of updates. -/
theorem screenInv_applyUpdates (w h : Nat) (vis : Bool) (us : List BitmapUpdate)
    (d : DisplayState) (hd : ScreenInv w h vis d) :
    ScreenInv w h vis (applyUpdates us d) := by
  induction us generalizing d with
  | nil => exact hd
  | cons u rest ih =>
    have : applyUpdates (u :: rest) d =
        applyUpdates rest (applyBitmap u.x u.y u.w u.h u.data u.bpp d) := rfl
    rw [this]
    exact ih _ (screenInv_step w h vis u d hd)

/-- With the pointer hidden and the dirty flag set, a screenshot shows each
in-bounds screen-buffer pixel unchanged. -/
theorem screenshot_pix_hidden (d : DisplayState) (s : Img)
    (hs : d.screenBuffer = some s) (hdirty : d.consumerBufferDirty = true)
    (hvis : d.pointerVisible = false) (p q : Nat) (hp : p < s.width)
    (hq : q < s.height) :
    ((screenshot d).1).pix p q = s.pix p q := by
  unfold screenshot
  rw [hs]
  simp only [hdirty, Option.isNone_none, true_or, if_true]
  unfold updateConsumerBuffer
  rw [hs]
  simp only [hvis, Bool.false_eq_true, if_false, Option.getD_some]
  simp only [pasteImg]
  rw [if_pos]
  · simp
  · refine ⟨by omega, by omega, by omega, by omega⟩

/-- C1, counterexample.  The claim ignores pointer compositing: a fresh
`Display` has a visible pointer (the default arrow at `(0, 0)`), and
`screenshot()` composites it over the screen, so after writing a red pixel at
`(0, 0)` the screenshot shows the cursor's black outline there, not the pixel
last written by the covering update. -/
theorem C1_screenshot_counterexample :
    lastWritten [⟨0, 0, 1, 1, [0, 0, 255, 0], 32⟩] 0 0 = some ⟨255, 0, 0⟩ ∧
    ((screenshot (applyUpdates [⟨0, 0, 1, 1, [0, 0, 255, 0], 32⟩]
        (Display.init 4 4 30))).1).pix 0 0 = ⟨0, 0, 0⟩ ∧
    (⟨255, 0, 0⟩ : Pixel) ≠ ⟨0, 0, 0⟩ := by
  exact ⟨by rfl, by rfl, by decide⟩

/-- C1, amended.  After any sequence of `apply_bitmap` calls, a screenshot
pixel equals the pixel last written by the latest successful update covering
it, for every in-bounds coordinate **not composited over by the pointer
overlay** — here realized by first hiding the pointer with an
`update_pointer(visible=False)` call (by default the pointer is visible and
its cursor pixels take precedence). -/
theorem C1_screenshot_last_written (w h fps : Nat) (t : ℚ)
    (us : List BitmapUpdate) (p q : Nat) (c : Pixel) (hp : p < w) (hq : q < h)
    (hlast : lastWritten us p q = some c) :
    ((screenshot (applyUpdates us
        (updatePointer none none (some false) none none t
          (Display.init w h fps)).2)).1).pix p q = c := by
  set d0 := (updatePointer none none (some false) none none t (Display.init w h fps)).2
    with hd0
  have hinv0 : ScreenInv w h false d0 := by
    rw [hd0]
    unfold updatePointer
    rw [if_neg]
    · refine ⟨rfl, rfl, rfl, rfl, ?_⟩
      intro s hsome
      simp [Display.init] at hsome
    · intro hand
      exact absurd hand.1 (by decide)
  have hinv := screenInv_applyUpdates w h false us d0 hinv0
  obtain ⟨hw, hh, hv, hdirty, hdims⟩ := hinv
  have hpix := screenPix_applyUpdates us d0 p q c hlast
  unfold screenPix at hpix
  cases hs : (applyUpdates us d0).screenBuffer with
  | none => rw [hs] at hpix; cases hpix
  | some s =>
    rw [hs] at hpix
    simp only [Option.map_some', Option.some_inj] at hpix
    obtain ⟨hsw, hsh⟩ := hdims s hs
    rw [screenshot_pix_hidden (applyUpdates us d0) s hs hdirty hv p q
      (by omega) (by omega)]
    exact hpix

/-- C1, witness: one 1×1 32-bpp red update at the origin with the pointer
hidden; the screenshot pixel at `(0, 0)` is the red pixel written. -/
theorem C1_screenshot_last_written_witness :
    ((screenshot (applyUpdates [⟨0, 0, 1, 1, [0, 0, 255, 9], 32⟩]
        (updatePointer none none (some false) none none 0
          (Display.init 4 4 30)).2)).1).pix 0 0 = ⟨255, 0, 0⟩ :=
  C1_screenshot_last_written 4 4 30 0 [⟨0, 0, 1, 1, [0, 0, 255, 9], 32⟩] 0 0
    ⟨255, 0, 0⟩ (by decide) (by decide) (by rfl)

/-! ### Claims C2 and C8: the bounded chunk queue and chunk sequencing -/

/-- A producing read advances the chunk counter by one; an empty read leaves
it unchanged; consuming never changes it. -/
theorem videoStep_chunkSequence (e : VideoEvent) (v : VideoState) :
    (videoStep e v).chunkSequence =
      match e with
      | .read data _ => if data = [] then v.chunkSequence else v.chunkSequence + 1
      | .consume => v.chunkSequence := by
  cases e with
  | read data now =>
    unfold videoStep readStep
    by_cases hdata : data = []
    · simp [hdata]
    · simp only [hdata, if_neg, if_false]
      rw [(evictOld_fields _).2.2.2.1]
      split <;> rfl
  | consume =>
    unfold videoStep queueGet
    cases v.videoQueue <;> rfl

/-- C2, confirmed.  Along every interleaving of reader iterations and consumer
dequeues starting from a fresh pipeline, the queue never holds more than its
configured bound of 100 chunks; and whenever a produced chunk meets a full
queue, `put_nowait` fails and exactly one `queue_drops` increment happens
while the chunk stream continues (the chunk counter still advances and the
bytes are still counted and recorded). -/
theorem C2_queue_bound_and_drops :
    (∀ (es : List VideoEvent) (maxBytes : Nat),
      (runVideo es (VideoState.init maxBytes)).videoQueue.length ≤ 100 ∧
      (runVideo es (VideoState.init maxBytes)).queueMaxsize = 100) ∧
    (∀ (data : List Nat) (now : ℚ) (v : VideoState), data ≠ [] →
      v.queueMaxsize ≤ v.videoQueue.length →
      (readStep data now v).queueDrops = v.queueDrops + 1 ∧
      (readStep data now v).chunkSequence = v.chunkSequence + 1 ∧
      (readStep data now v).bytesEncoded = v.bytesEncoded + data.length ∧
      (readStep data now v).videoQueue = v.videoQueue) := by
  have hdrop : ∀ (data : List Nat) (now : ℚ) (v : VideoState), data ≠ [] →
      v.queueMaxsize ≤ v.videoQueue.length →
      (readStep data now v).queueDrops = v.queueDrops + 1 ∧
      (readStep data now v).chunkSequence = v.chunkSequence + 1 ∧
      (readStep data now v).bytesEncoded = v.bytesEncoded + data.length ∧
      (readStep data now v).videoQueue = v.videoQueue := by
    intro data now v hdata hfull
    unfold readStep
    have hnl : ¬ v.videoQueue.length < v.queueMaxsize := by omega
    simp only [hdata, if_neg, if_false, hnl]
    obtain ⟨h1, h2, h3, h4, h5⟩ := evictOld_fields
      { v with
        chunkSequence := v.chunkSequence + 1
        videoChunks := v.videoChunks ++
          [{ data := data, timestamp := now, sequence := v.chunkSequence }]
        videoBufferSize := v.videoBufferSize + data.length
        bytesEncoded := v.bytesEncoded + data.length
        queueDrops := v.queueDrops + 1 }
    exact ⟨h3, h4, h5, h1⟩
  refine ⟨?_, hdrop⟩
  intro es maxBytes
  have hstep : ∀ (e : VideoEvent) (v : VideoState),
      v.videoQueue.length ≤ v.queueMaxsize ∧ v.queueMaxsize = 100 →
      (videoStep e v).videoQueue.length ≤ (videoStep e v).queueMaxsize ∧
      (videoStep e v).queueMaxsize = 100 := by
    intro e v ⟨hb, hm⟩
    cases e with
    | read data now =>
      by_cases hdata : data = []
      · simpa [videoStep, readStep, hdata] using ⟨hb, hm⟩
      · unfold videoStep readStep
        simp only [hdata, if_neg, if_false]
        by_cases hlt : v.videoQueue.length < v.queueMaxsize
        · simp only [hlt, if_pos]
          obtain ⟨h1, h2, _⟩ := evictOld_fields
            { v with
              chunkSequence := v.chunkSequence + 1
              videoChunks := v.videoChunks ++
                [{ data := data, timestamp := now, sequence := v.chunkSequence }]
              videoBufferSize := v.videoBufferSize + data.length
              bytesEncoded := v.bytesEncoded + data.length
              videoQueue := v.videoQueue ++
                [{ data := data, timestamp := now, sequence := v.chunkSequence }] }
          rw [h1, h2]
          constructor
          · simp only [List.length_append, List.length_cons, List.length_nil]
            omega
          · exact hm
        · simp only [hlt, if_neg, if_false]
          obtain ⟨h1, h2, _⟩ := evictOld_fields
            { v with
              chunkSequence := v.chunkSequence + 1
              videoChunks := v.videoChunks ++
                [{ data := data, timestamp := now, sequence := v.chunkSequence }]
              videoBufferSize := v.videoBufferSize + data.length
              bytesEncoded := v.bytesEncoded + data.length
              queueDrops := v.queueDrops + 1 }
          rw [h1, h2]
          exact ⟨hb, hm⟩
    | consume =>
      unfold videoStep queueGet
      cases hq : v.videoQueue with
      | nil =>
        refine ⟨?_, hm⟩
        simp [hq] at hb ⊢
      | cons c rest =>
        refine ⟨?_, hm⟩
        have : rest.length + 1 = v.videoQueue.length := by simp [hq]
        simp only
        omega
  have hrun : ∀ (es : List VideoEvent) (v : VideoState),
      v.videoQueue.length ≤ v.queueMaxsize ∧ v.queueMaxsize = 100 →
      (runVideo es v).videoQueue.length ≤ (runVideo es v).queueMaxsize ∧
      (runVideo es v).queueMaxsize = 100 := by
    intro es
    induction es with
    | nil => intro v hv; exact hv
    | cons e rest ih =>
      intro v hv
      exact ih (videoStep e v) (hstep e v hv)
  have h0 : (VideoState.init maxBytes).videoQueue.length ≤
      (VideoState.init maxBytes).queueMaxsize ∧
      (VideoState.init maxBytes).queueMaxsize = 100 := by
    exact ⟨by simp [VideoState.init], rfl⟩
  obtain ⟨ha, hb⟩ := hrun es (VideoState.init maxBytes) h0
  exact ⟨hb ▸ ha, hb⟩

/-- C2, witness: the theorem's invariant at a concrete event interleaving, and
the drop behaviour at a concrete full-queue state. -/
theorem C2_queue_bound_and_drops_witness :
    ((runVideo [.read [1, 2] 0, .read [] 0, .read [3] 1, .consume]
        (VideoState.init 1000)).videoQueue.length ≤ 100) ∧
    (readStep [7] 2 { VideoState.init 1000 with
        videoQueue := List.replicate 100 ⟨[5], 0, 0⟩ }).queueDrops =
      { VideoState.init 1000 with
        videoQueue := List.replicate 100 ⟨[5], 0, 0⟩ }.queueDrops + 1 :=
  ⟨(C2_queue_bound_and_drops.1 [.read [1, 2] 0, .read [] 0, .read [3] 1, .consume]
      1000).1,
   (C2_queue_bound_and_drops.2 [7] 2 _ (by decide) (by decide)).1⟩

/-- Every event of the video pipeline preserves `QueueSeqSorted`. -/
theorem queueSeqSorted_step (e : VideoEvent) (v : VideoState)
    (hv : QueueSeqSorted v) : QueueSeqSorted (videoStep e v) := by
  obtain ⟨hsorted, hbound⟩ := hv
  cases e with
  | read data now =>
    by_cases hdata : data = []
    · simpa [videoStep, readStep, hdata] using ⟨hsorted, hbound⟩
    · unfold videoStep readStep
      simp only [hdata, if_neg, if_false]
      by_cases hlt : v.videoQueue.length < v.queueMaxsize
      · simp only [hlt, if_pos]
        set v2 : VideoState :=
          { v with
            chunkSequence := v.chunkSequence + 1
            videoChunks := v.videoChunks ++
              [{ data := data, timestamp := now, sequence := v.chunkSequence }]
            videoBufferSize := v.videoBufferSize + data.length
            bytesEncoded := v.bytesEncoded + data.length
            videoQueue := v.videoQueue ++
              [{ data := data, timestamp := now, sequence := v.chunkSequence }] }
          with hv2
        obtain ⟨hq, -, -, hcs, -⟩ := evictOld_fields v2
        constructor
        · rw [hq, hv2]
          simp only [List.map_append, List.map_cons, List.map_nil]
          rw [List.pairwise_append]
          refine ⟨hsorted, List.pairwise_singleton _ _, ?_⟩
          intro a ha b hb
          simp only [List.mem_singleton] at hb
          subst hb
          obtain ⟨c, hc, rfl⟩ := List.mem_map.mp ha
          exact hbound c hc
        · intro c hc
          rw [hq, hv2] at hc
          rw [hcs, hv2]
          simp only [List.mem_append, List.mem_singleton] at hc
          cases hc with
          | inl h => exact Nat.lt_succ_of_lt (hbound c h)
          | inr h => subst h; exact Nat.lt_succ_self _
      · simp only [hlt, if_neg, if_false]
        set v2 : VideoState :=
          { v with
            chunkSequence := v.chunkSequence + 1
            videoChunks := v.videoChunks ++
              [{ data := data, timestamp := now, sequence := v.chunkSequence }]
            videoBufferSize := v.videoBufferSize + data.length
            bytesEncoded := v.bytesEncoded + data.length
            queueDrops := v.queueDrops + 1 }
          with hv2
        obtain ⟨hq, -, -, hcs, -⟩ := evictOld_fields v2
        refine ⟨by rw [hq, hv2]; exact hsorted, ?_⟩
        intro c hc
        rw [hq, hv2] at hc
        rw [hcs, hv2]
        exact Nat.lt_succ_of_lt (hbound c hc)
  | consume =>
    unfold videoStep queueGet
    cases hqv : v.videoQueue with
    | nil => exact ⟨by simp [hqv] at hsorted ⊢, hbound⟩
    | cons c rest =>
      rw [hqv] at hsorted hbound
      simp only [List.map_cons, List.pairwise_cons] at hsorted
      refine ⟨hsorted.2, ?_⟩
      intro c2 hc2
      exact hbound c2 (List.mem_cons_of_mem c hc2)

/-- C8, confirmed.  Within a single encoder run, the sequence numbers the
stdout reader assigns to produced chunks form exactly the contiguous range
starting at the current chunk counter — strictly increasing and contiguous —
and along any interleaving from a fresh pipeline the chunks in the consumer
queue are strictly monotonic in `sequence`. -/
theorem C8_chunk_sequences :
    (∀ (es : List VideoEvent) (v : VideoState),
      producedSeqs es v = List.range' v.chunkSequence (producedCount es)) ∧
    (∀ (es : List VideoEvent) (maxBytes : Nat),
      ((runVideo es (VideoState.init maxBytes)).videoQueue.map
        VideoChunk.sequence).Pairwise (· < ·)) := by
  constructor
  · intro es
    induction es with
    | nil => intro v; rfl
    | cons e rest ih =>
      intro v
      cases e with
      | read data now =>
        by_cases hdata : data = []
        · subst hdata
          have hcs : (videoStep (.read [] now) v).chunkSequence = v.chunkSequence := by
            rw [videoStep_chunkSequence]
            simp
          have hcount : producedCount (.read [] now :: rest) = producedCount rest := by
            simp [producedCount, List.countP_cons]
          rw [show producedSeqs (VideoEvent.read [] now :: rest) v =
              producedSeqs rest (videoStep (.read [] now) v) by simp [producedSeqs]]
          rw [ih (videoStep (.read [] now) v), hcs, hcount]
        · have hcs : (videoStep (.read data now) v).chunkSequence =
              v.chunkSequence + 1 := by
            rw [videoStep_chunkSequence]
            simp [hdata]
          have hcount : producedCount (.read data now :: rest) =
              producedCount rest + 1 := by
            simp [producedCount, List.countP_cons, hdata]
          simp only [producedSeqs, hdata, if_neg, if_false, List.singleton_append]
          rw [ih (videoStep (.read data now) v), hcs, hcount]
          rfl
      | consume =>
        have hcs : (videoStep .consume v).chunkSequence = v.chunkSequence := by
          rw [videoStep_chunkSequence]
        have hcount : producedCount (.consume :: rest) = producedCount rest := by
          simp [producedCount, List.countP_cons]
        simp only [producedSeqs, List.nil_append]
        rw [ih (videoStep .consume v), hcs, hcount]
  · intro es maxBytes
    have hrun : ∀ (es : List VideoEvent) (v : VideoState), QueueSeqSorted v →
        QueueSeqSorted (runVideo es v) := by
      intro es
      induction es with
      | nil => intro v hv; exact hv
      | cons e rest ih => intro v hv; exact ih (videoStep e v) (queueSeqSorted_step e v hv)
    have h0 : QueueSeqSorted (VideoState.init maxBytes) := ⟨by simp [VideoState.init], by simp [VideoState.init]⟩
    exact (hrun es (VideoState.init maxBytes) h0).1

end SimpleRDP
